import Mathlib

/-!
Verification of the analyze-chart serverless endpoint.

The repository consists of one HTTP handler in three near-duplicate versions
(src/api/analyze-chart.js and the two versions inside src/unnamed/part_000).
The handler validates the request (method, credential, multipart upload),
performs one outbound call to a generative model, parses the reply text as
JSON (the variants first try to extract a fenced code block), and answers
with either the parsed analysis record, a canned fallback record, or an
error message.

The embedding below is a shallow one: host effects (environment, multipart
parsing, file read, the model call) enter the handler as oracle inputs of
type Except, and JS builtins used by the code (JSON.parse, String.includes,
String.startsWith, the fenced-block regex match) are modelled as executable
Lean functions over lists of characters.
-/

namespace MarketPredictor

/-- A JSON value as produced by the host runtime JSON.parse.  Numbers keep
their source lexeme: the handler never computes with a number, it only
passes the parsed value through to the response, so no floating point is
needed. -/
inductive Json where
  | obj (fields : List (String × Json))
  | arr (items : List Json)
  | str (text : String)
  | num (lexeme : String)
  | bool (b : Bool)
  | null

/-- JSON insignificant whitespace (the four characters of RFC 8259). -/
def isJsonWs (c : Char) : Bool :=
  c = ' ' || c = '\t' || c = '\n' || c = '\r'

/-- Drop leading JSON whitespace. -/
def skipWs (s : List Char) : List Char := s.dropWhile isJsonWs

/-- ASCII decimal digit test. -/
def isDigitChar (c : Char) : Bool := '0' ≤ c && c ≤ '9'

/-- Value of a hexadecimal digit, if the character is one, computed on the
code point: 48-57 are the digits, 97-102 and 65-70 the two letter cases. -/
def hexVal (c : Char) : Option Nat :=
  let n := c.toNat
  if 48 ≤ n ∧ n ≤ 57 then some (n - 48)
  else if 97 ≤ n ∧ n ≤ 102 then some (n - 87)
  else if 65 ≤ n ∧ n ≤ 70 then some (n - 55)
  else none

/-- The single-character JSON string escapes. -/
def escChar (e : Char) : Option Char :=
  match e with
  | '"' => some '"'
  | '\\' => some '\\'
  | '/' => some '/'
  | 'b' => some (Char.ofNat 8)
  | 'f' => some (Char.ofNat 12)
  | 'n' => some '\n'
  | 'r' => some '\r'
  | 't' => some '\t'
  | _ => none

/-- Body of a JSON string literal, after the opening quote: returns the
decoded characters and the input after the closing quote.  Unescaped
control characters are refused, as JSON.parse refuses them; surrogate
escape pairs are combined. -/
def parseStringBody : List Char → Option (List Char × List Char)
  | [] => none
  | '"' :: r => some ([], r)
  | '\\' :: 'u' :: x1 :: x2 :: x3 :: x4 :: rs =>
    (match hexVal x1, hexVal x2, hexVal x3, hexVal x4 with
     | some v1, some v2, some v3, some v4 =>
       let n := ((v1 * 16 + v2) * 16 + v3) * 16 + v4
       if 55296 ≤ n ∧ n ≤ 56319 then
         match rs with
         | '\\' :: 'u' :: y1 :: y2 :: y3 :: y4 :: rs2 =>
           (match hexVal y1, hexVal y2, hexVal y3, hexVal y4 with
            | some w1, some w2, some w3, some w4 =>
              let m := ((w1 * 16 + w2) * 16 + w3) * 16 + w4
              if 56320 ≤ m ∧ m ≤ 57343 then
                (parseStringBody rs2).map
                  (fun p => (Char.ofNat (65536 + (n - 55296) * 1024 + (m - 56320)) :: p.1, p.2))
              else none
            | _, _, _, _ => none)
         | _ => none
       else if 56320 ≤ n ∧ n ≤ 57343 then none
       else (parseStringBody rs).map (fun p => (Char.ofNat n :: p.1, p.2))
     | _, _, _, _ => none)
  | '\\' :: e :: r =>
    (match escChar e with
     | some c => (parseStringBody r).map (fun p => (c :: p.1, p.2))
     | none => none)
  | c :: r =>
    if c.toNat < 32 then none
    else (parseStringBody r).map (fun p => (c :: p.1, p.2))

/-- Integer part of a JSON number: a lone zero, or a nonzero digit followed
by digits. -/
def parseIntPart : List Char → Option (List Char × List Char)
  | '0' :: r => some (['0'], r)
  | c :: r =>
    if isDigitChar c then
      let p := r.span isDigitChar
      some (c :: p.1, p.2)
    else none
  | [] => none

/-- A JSON number, returned as its lexeme together with the rest of the
input.  A malformed tail (such as a dot with no digit) is left unconsumed;
JSON.parse then fails on the leftover characters, which this model
reproduces at the enclosing level. -/
def parseNumber (s : List Char) : Option (List Char × List Char) :=
  let neg : List Char × List Char :=
    match s with
    | '-' :: r => (['-'], r)
    | _ => ([], s)
  match parseIntPart neg.2 with
  | none => none
  | some ip =>
    let fr : List Char × List Char :=
      match ip.2 with
      | '.' :: c :: r =>
        if isDigitChar c then
          let p := r.span isDigitChar
          ('.' :: c :: p.1, p.2)
        else ([], ip.2)
      | _ => ([], ip.2)
    let ex : List Char × List Char :=
      match fr.2 with
      | e :: sg :: c :: r =>
        if e = 'e' ∨ e = 'E' then
          if (sg = '+' ∨ sg = '-') ∧ isDigitChar c then
            let p := r.span isDigitChar
            ([e, sg, c] ++ p.1, p.2)
          else if isDigitChar sg then
            let p := (c :: r).span isDigitChar
            ([e, sg] ++ p.1, p.2)
          else ([], fr.2)
        else ([], fr.2)
      | e :: sg :: [] =>
        if (e = 'e' ∨ e = 'E') ∧ isDigitChar sg then ([e, sg], [])
        else ([], fr.2)
      | _ => ([], fr.2)
    some (neg.1 ++ ip.1 ++ fr.1 ++ ex.1, ex.2)

mutual

/-- One JSON value, fuel-indexed recursive descent.  Leading whitespace is
assumed already skipped. -/
def parseValue : Nat → List Char → Option (Json × List Char)
  | 0, _ => none
  | Nat.succ fuel, s =>
    match s with
    | 'n' :: 'u' :: 'l' :: 'l' :: r => some (.null, r)
    | 't' :: 'r' :: 'u' :: 'e' :: r => some (.bool true, r)
    | 'f' :: 'a' :: 'l' :: 's' :: 'e' :: r => some (.bool false, r)
    | '"' :: r => (parseStringBody r).map (fun p => (.str (String.mk p.1), p.2))
    | '[' :: r =>
      (match skipWs r with
       | ']' :: r2 => some (.arr [], r2)
       | r2 =>
         match parseElems fuel r2 with
         | some p => some (.arr p.1, p.2)
         | none => none)
    | '{' :: r =>
      (match skipWs r with
       | '}' :: r2 => some (.obj [], r2)
       | r2 =>
         match parseMembers fuel r2 with
         | some p => some (.obj p.1, p.2)
         | none => none)
    | _ => (parseNumber s).map (fun p => (.num (String.mk p.1), p.2))

/-- One or more comma-separated array elements up to the closing bracket. -/
def parseElems : Nat → List Char → Option (List Json × List Char)
  | 0, _ => none
  | Nat.succ fuel, s =>
    match parseValue fuel s with
    | none => none
    | some (v, r) =>
      match skipWs r with
      | ',' :: r2 =>
        (match parseElems fuel (skipWs r2) with
         | some p => some (v :: p.1, p.2)
         | none => none)
      | ']' :: r2 => some ([v], r2)
      | _ => none

/-- One or more comma-separated object members up to the closing brace. -/
def parseMembers : Nat → List Char → Option (List (String × Json) × List Char)
  | 0, _ => none
  | Nat.succ fuel, s =>
    match s with
    | '"' :: r =>
      (match parseStringBody r with
       | none => none
       | some (key, r1) =>
         match skipWs r1 with
         | ':' :: r2 =>
           (match parseValue fuel (skipWs r2) with
            | none => none
            | some (v, r3) =>
              match skipWs r3 with
              | ',' :: r4 =>
                (match parseMembers fuel (skipWs r4) with
                 | some p => some ((String.mk key, v) :: p.1, p.2)
                 | none => none)
              | '}' :: r4 => some ([(String.mk key, v)], r4)
              | _ => none)
         | _ => none)
    | _ => none

end

/-- JSON.parse of the host runtime: whitespace, one value, whitespace, end
of input; any violation raises, modelled as none.  The fuel bound exceeds
any possible recursion depth, each unit of which consumes input. -/
def jsonParse (s : String) : Option Json :=
  let t := skipWs s.toList
  match parseValue (2 * t.length + 2) t with
  | some (v, r) => if (skipWs r).isEmpty then some v else none
  | none => none

/-- Index of the first occurrence of `pat` in a list, as JS String.indexOf
and the regex leftmost-match rule compute it. -/
def findSubIdx (pat : List Char) : List Char → Option Nat
  | [] => if pat.isEmpty then some 0 else none
  | c :: t =>
    if pat.isPrefixOf (c :: t) then some 0
    else (findSubIdx pat t).map (· + 1)

/-- JS String.includes. -/
def includesStr (hay needle : String) : Bool :=
  (findSubIdx needle.toList hay.toList).isSome

/-- JS String.startsWith. -/
def jsStartsWith (s pre : String) : Bool :=
  pre.toList.isPrefixOf s.toList

/-- The opening delimiter of the fenced block sought by the variant
handlers. -/
def jsonFence : List Char := "```json\n".toList

/-- The closing delimiter of the fenced block. -/
def fenceClose : List Char := "\n```".toList

/-- Capture group 1 of the match of the regular expression
/```json\n([\s\S]*?)\n```/ against the reply: the leftmost occurrence of
the opening delimiter, then the shortest stretch up to a closing delimiter.
none when the regex does not match. -/
def jsonBlockContent (s : List Char) : Option (List Char) :=
  match findSubIdx jsonFence s with
  | none => none
  | some i =>
    match findSubIdx fenceClose (s.drop (i + jsonFence.length)) with
    | none => none
    | some k => some ((s.drop (i + jsonFence.length)).take k)

/-- The text the variant handlers hand to JSON.parse: the captured block
content when the match succeeded AND the captured group is truthy, that is
non-empty (the code tests jsonMatch and then jsonMatch at index 1, and an
empty capture is falsy); the whole reply otherwise. -/
def selectJsonText (s : List Char) : List Char :=
  match jsonBlockContent s with
  | some c => if c.isEmpty then s else c
  | none => s

/-- One uploaded file as produced by the multipart parser; the reported
MIME type may be null or undefined, which member access then trips over. -/
structure UploadedFile where
  mimetype : Option String
deriving DecidableEq

/-- The parsed multipart fields and files.  Each text field is absent or a
list of values; the image entry is absent or a list of files. -/
structure ParsedForm where
  image : Option (List UploadedFile)
  assetType : Option (List String)
  timeframe : Option (List String)
  additionalNotes : Option (List String)
  outputLanguage : Option (List String)

/-- The idiom used for every text field: the field if present, indexed at
zero, else the default; indexing an empty list yields the undefined value,
which later renders as the string undefined. -/
def fieldOr (v : Option (List String)) (dflt : String) : String :=
  match v with
  | none => dflt
  | some [] => "undefined"
  | some (x :: _) => x

/-- Everything the handler reads from its environment during one request,
with each fallible host effect entered as an Except oracle: the multipart
parse, the file read, and the model call (its ok payload is the reply
text). -/
structure HandlerInput where
  method : String
  geminiApiKey : Option String
  acceptLanguage : Option String
  formParse : Except String ParsedForm
  readFile : Except String String
  modelResult : Except String String

/-- A response body: either the analysis payload of a 200 or the message
payload of an error status. -/
inductive ResponseBody where
  | analysis (a : Json)
  | message (m : String)

/-- Status and body of the HTTP response. -/
structure HttpResponse where
  status : Nat
  body : ResponseBody

/-- The observable outcome of one invocation: the response together with
how many times the multipart body was parsed and how many outbound model
calls were made. -/
structure HandlerResult where
  response : HttpResponse
  bodyParses : Nat
  modelCalls : Nat

/-- JS truthiness of an optional string: null, undefined and the empty
string are falsy. -/
def truthyStr : Option String → Bool
  | none => false
  | some s => !s.isEmpty

def methodNotAllowedMsg : String := "Method Not Allowed"

def serverFullMsg : String := "Server is full, please try again later."

def noImageMsg : String := "No image file uploaded."

def invalidTypeMsg : String := "Invalid file type. Please upload an image."

/-- The TypeError text raised by member access on a null MIME type; the
wording belongs to the host runtime, only its existence matters here. -/
def nullMimetypeError : String := "Cannot read properties of null (reading startsWith)"

/-- Whether the catch block localizes to Indonesian: the Accept-Language
header is truthy and includes the substring id. -/
def wantsIndonesian : Option String → Bool
  | none => false
  | some s => !s.isEmpty && includesStr s "id"

/-- The message built in the catch block, echoing the raw error text after
a prefix chosen by the Accept-Language header. -/
def catchMessage (acceptLanguage : Option String) (errMsg : String) : String :=
  if wantsIndonesian acceptLanguage then
    "Gagal menganalisis grafik. Detail kesalahan: " ++ errMsg
  else
    "Failed to analyze chart. Error details: " ++ errMsg

/-- The canned fallback record of the main handler, built when JSON.parse
of the reply throws: fixed direction, support, resistance and risk warning,
with the raw reply appended to the rationale. -/
def fallbackRecord (outputLanguage : String) (raw : String) : Json :=
  .obj
    [ ("direction", .str (if outputLanguage = "id" then "Tidak Pasti" else "Uncertain"))
    , ("rationale", .str
        ((if outputLanguage = "id" then
            "Gagal mem-parse analisis dari AI. Respon mentah: "
          else
            "Failed to parse analysis from AI. Raw response: ") ++ raw))
    , ("support", .str "N/A")
    , ("resistance", .str "N/A")
    , ("riskWarning", .str
        (if outputLanguage = "id" then
          "Selalu berhati-hati. Analisis AI hanya untuk tujuan informasi."
        else
          "Always exercise caution. AI analysis is for informational purposes only.")) ]

/-- The handler of src/api/analyze-chart.js as a pure function of its
oracle inputs.  The match tree follows the source line by line: method
check, credential check, then the try block (multipart parse, image
presence, MIME type, file read, model call, JSON parse with fallback),
with every raised error routed to the catch block that builds a localized
500 message. -/
def handler (inp : HandlerInput) : HandlerResult :=
  if inp.method ≠ "POST" then
    ⟨⟨405, .message methodNotAllowedMsg⟩, 0, 0⟩
  else if !truthyStr inp.geminiApiKey then
    ⟨⟨500, .message serverFullMsg⟩, 0, 0⟩
  else
    match inp.formParse with
    | .error e => ⟨⟨500, .message (catchMessage inp.acceptLanguage e)⟩, 1, 0⟩
    | .ok form =>
      match form.image with
      | none => ⟨⟨400, .message noImageMsg⟩, 1, 0⟩
      | some [] => ⟨⟨400, .message noImageMsg⟩, 1, 0⟩
      | some (imageFile :: _) =>
        match imageFile.mimetype with
        | none => ⟨⟨500, .message (catchMessage inp.acceptLanguage nullMimetypeError)⟩, 1, 0⟩
        | some mt =>
          if !jsStartsWith mt "image/" then
            ⟨⟨400, .message invalidTypeMsg⟩, 1, 0⟩
          else
            match inp.readFile with
            | .error e => ⟨⟨500, .message (catchMessage inp.acceptLanguage e)⟩, 1, 0⟩
            | .ok _ =>
              let outputLanguage := fieldOr form.outputLanguage "en"
              match inp.modelResult with
              | .error e => ⟨⟨500, .message (catchMessage inp.acceptLanguage e)⟩, 1, 1⟩
              | .ok text =>
                let analysisOutput :=
                  match jsonParse text with
                  | some j => j
                  | none => fallbackRecord outputLanguage text
                ⟨⟨200, .analysis analysisOutput⟩, 1, 1⟩

/-- The canned fallback record of the first variant handler; same shape as
the main one, different rationale prefix. -/
def fallbackRecordVariant (outputLanguage : String) (raw : String) : Json :=
  .obj
    [ ("direction", .str (if outputLanguage = "id" then "Tidak Pasti" else "Uncertain"))
    , ("rationale", .str
        ((if outputLanguage = "id" then
            "Gagal mem-parse analisis rinci dari AI. Respon mentah: "
          else
            "Failed to parse detailed analysis from AI. Raw response: ") ++ raw))
    , ("support", .str "N/A")
    , ("resistance", .str "N/A")
    , ("riskWarning", .str
        (if outputLanguage = "id" then
          "Selalu berhati-hati. Analisis AI hanya untuk tujuan informasi."
        else
          "Always exercise caution. AI analysis is for informational purposes only.")) ]

/-- The analysis value built by the variant handlers from the raw reply:
JSON.parse of the selected text (fenced block content when matched and
truthy, whole reply otherwise), with the canned fallback when that parse
throws. -/
def variantAnalysisOutput (outputLanguage raw : String) : Json :=
  match jsonParse (String.mk (selectJsonText raw.toList)) with
  | some j => j
  | none => fallbackRecordVariant outputLanguage raw

/-- The five field names of the expected analysis record. -/
def recordKeys : List String :=
  ["direction", "rationale", "support", "resistance", "riskWarning"]

/-- Whether an object member list carries a string value under a key. -/
def hasStrField (members : List (String × Json)) (k : String) : Bool :=
  members.any (fun kv =>
    kv.1 == k && (match kv.2 with | .str _ => true | _ => false))

/-- Whether a parsed JSON value has the shape of the expected structured
record: an object populating all five fields with text. -/
def isAnalysisRecord : Json → Bool
  | .obj ms => recordKeys.all (hasStrField ms)
  | _ => false

/-- Whether a reply text parses as the expected structured record. -/
def parsesAsRecord (s : String) : Bool :=
  match jsonParse s with
  | some j => isAnalysisRecord j
  | none => false

/-- The pattern `pat` occurs in `s` at index `i`. -/
def occursAt (pat s : List Char) (i : Nat) : Prop := pat <+: s.drop i

/-- Declarative reading of the regex match of the variant handlers: `c` is
the content of the first fenced json block of `s` when the opening
delimiter occurs at a leftmost index `i` and `c` runs from there to the
first closing delimiter. -/
def firstBlockIs (s c : List Char) : Prop :=
  ∃ i k, occursAt jsonFence s i ∧ (∀ j, j < i → ¬ occursAt jsonFence s j) ∧
    occursAt fenceClose (s.drop (i + jsonFence.length)) k ∧
    (∀ j, j < k → ¬ occursAt fenceClose (s.drop (i + jsonFence.length)) j) ∧
    c = (s.drop (i + jsonFence.length)).take k

/-! ## Concrete instances used by the closed checks -/

/-- A well-formed multipart form carrying one png upload and no text
fields. -/
def okForm : ParsedForm := ⟨some [⟨some "image/png"⟩], none, none, none, none⟩

/-- An input on which every effect succeeds and the model reply is the
text 42: valid JSON, far from the expected record. -/
def numericReplyInput : HandlerInput :=
  ⟨"POST", some "key", none, .ok okForm, .ok "bytes", .ok "42"⟩

/-- An input on which every effect succeeds and the model reply is prose
that JSON.parse refuses. -/
def proseReplyInput : HandlerInput :=
  ⟨"POST", some "key", none, .ok okForm, .ok "bytes", .ok "not json"⟩

/-- An input passing the method, credential and upload validations on
which the read of the uploaded file then fails. -/
def readFailInput : HandlerInput :=
  ⟨"POST", some "key", none, .ok okForm, .error "EACCES", .ok "42"⟩

/-- The model reply used by the concrete success check: a JSON object
populating the five expected fields. -/
def okRecordText : String :=
  "\x7b\"direction\":\"Bullish\",\"rationale\":\"r\",\"support\":\"1\",\"resistance\":\"2\",\"riskWarning\":\"w\"\x7d"

/-- The record that JSON.parse yields on that reply. -/
def okRecordJson : Json :=
  .obj [("direction", .str "Bullish"), ("rationale", .str "r"), ("support", .str "1"),
        ("resistance", .str "2"), ("riskWarning", .str "w")]

/-- A fully well-formed input whose model reply is the record above. -/
def okRecordInput : HandlerInput :=
  ⟨"POST", some "key", none, .ok okForm, .ok "bytes", .ok okRecordText⟩

/-- The reply the code and the claim of the extraction treat differently:
a fenced json block whose content is empty. -/
def emptyBlockReply : String := "```json\n\n```"

/-- A reply carrying a fenced block with the content 42. -/
def fencedReply : String := "```json\n42\n```"

/-! ## Claims about the request validations -/

/-- Claim C3: a request whose method is not POST is answered with status
405 and the message Method Not Allowed; the zero counters record that the
body was never parsed and the model never contacted. -/
theorem non_post_rejected (inp : HandlerInput) (h : inp.method ≠ "POST") :
    handler inp = ⟨⟨405, .message methodNotAllowedMsg⟩, 0, 0⟩ := by
  simp [handler, h]

theorem non_post_rejected_witness :
    handler ⟨"GET", some "key", none, .ok okForm, .ok "bytes", .ok "42"⟩
      = ⟨⟨405, .message methodNotAllowedMsg⟩, 0, 0⟩ :=
  non_post_rejected ⟨"GET", some "key", none, .ok okForm, .ok "bytes", .ok "42"⟩
    (by decide)

/-- Claim C6: a POST request handled while the API-key environment
variable is absent is answered with status 500 and a static message; the
right hand side is a closed constant, so the message does not depend on
the request, and the zero counters record that neither the body parse nor
the model call happened. -/
theorem missing_key_static_500 (inp : HandlerInput) (hm : inp.method = "POST")
    (hk : inp.geminiApiKey = none) :
    handler inp = ⟨⟨500, .message serverFullMsg⟩, 0, 0⟩ := by
  simp [handler, hm, hk, truthyStr]

theorem missing_key_static_500_witness :
    handler ⟨"POST", none, none, .ok okForm, .ok "bytes", .ok "42"⟩
      = ⟨⟨500, .message serverFullMsg⟩, 0, 0⟩ :=
  missing_key_static_500 ⟨"POST", none, none, .ok okForm, .ok "bytes", .ok "42"⟩
    rfl rfl

/-- Claim C4: a POST request whose parsed multipart body carries no image
entry, or an empty one, is answered 400 with the no-image message, and the
model is not contacted. -/
theorem no_image_400 (inp : HandlerInput) (form : ParsedForm)
    (hm : inp.method = "POST") (hk : truthyStr inp.geminiApiKey = true)
    (hf : inp.formParse = .ok form)
    (hi : form.image = none ∨ form.image = some []) :
    handler inp = ⟨⟨400, .message noImageMsg⟩, 1, 0⟩ := by
  rcases hi with hi | hi <;> simp [handler, hm, hk, hf, hi]

theorem no_image_400_witness :
    handler ⟨"POST", some "key", none, .ok ⟨none, none, none, none, none⟩,
        .ok "bytes", .ok "42"⟩
      = ⟨⟨400, .message noImageMsg⟩, 1, 0⟩ :=
  no_image_400 ⟨"POST", some "key", none, .ok ⟨none, none, none, none, none⟩,
      .ok "bytes", .ok "42"⟩
    ⟨none, none, none, none, none⟩ rfl rfl rfl (Or.inl rfl)

/-- Claim C5: a POST request whose uploaded image reports a MIME type that
does not start with image/ is answered 400 with the invalid-type message,
and the model is not contacted. -/
theorem non_image_mime_400 (inp : HandlerInput) (form : ParsedForm)
    (file : UploadedFile) (rest : List UploadedFile) (mt : String)
    (hm : inp.method = "POST") (hk : truthyStr inp.geminiApiKey = true)
    (hf : inp.formParse = .ok form) (hi : form.image = some (file :: rest))
    (hmt : file.mimetype = some mt) (hs : jsStartsWith mt "image/" = false) :
    handler inp = ⟨⟨400, .message invalidTypeMsg⟩, 1, 0⟩ := by
  simp [handler, hm, hk, hf, hi, hmt, hs]

theorem non_image_mime_400_witness :
    handler ⟨"POST", some "key", none,
        .ok ⟨some [⟨some "text/plain"⟩], none, none, none, none⟩,
        .ok "bytes", .ok "42"⟩
      = ⟨⟨400, .message invalidTypeMsg⟩, 1, 0⟩ :=
  non_image_mime_400 ⟨"POST", some "key", none,
      .ok ⟨some [⟨some "text/plain"⟩], none, none, none, none⟩,
      .ok "bytes", .ok "42"⟩
    ⟨some [⟨some "text/plain"⟩], none, none, none, none⟩
    ⟨some "text/plain"⟩ [] "text/plain" rfl rfl rfl rfl rfl rfl

/-- Claim C9: when the uploaded image reports a null MIME type, the member
access of the type check raises, so the handler answers through the
generic catch path with a 500 carrying the localized echo of the raised
TypeError, not with the 400 invalid-type response. -/
theorem null_mime_500 (inp : HandlerInput) (form : ParsedForm)
    (file : UploadedFile) (rest : List UploadedFile)
    (hm : inp.method = "POST") (hk : truthyStr inp.geminiApiKey = true)
    (hf : inp.formParse = .ok form) (hi : form.image = some (file :: rest))
    (hmt : file.mimetype = none) :
    handler inp
      = ⟨⟨500, .message (catchMessage inp.acceptLanguage nullMimetypeError)⟩, 1, 0⟩
    ∧ (handler inp).response ≠ ⟨400, .message invalidTypeMsg⟩ := by
  have h1 : handler inp
      = ⟨⟨500, .message (catchMessage inp.acceptLanguage nullMimetypeError)⟩, 1, 0⟩ := by
    simp [handler, hm, hk, hf, hi, hmt]
  refine ⟨h1, ?_⟩
  rw [h1]
  intro hcontra
  have hst := congrArg HttpResponse.status hcontra
  simp at hst

theorem null_mime_500_witness :
    handler ⟨"POST", some "key", none,
        .ok ⟨some [⟨none⟩], none, none, none, none⟩, .ok "bytes", .ok "42"⟩
      = ⟨⟨500, .message (catchMessage none nullMimetypeError)⟩, 1, 0⟩ :=
  (null_mime_500 ⟨"POST", some "key", none,
      .ok ⟨some [⟨none⟩], none, none, none, none⟩, .ok "bytes", .ok "42"⟩
    ⟨some [⟨none⟩], none, none, none, none⟩ ⟨none⟩ [] rfl rfl rfl rfl rfl).1

/-- Claim C7: whenever the try block raises, whether at the multipart
parse, at the file read, or at the model call, the handler answers 500
with a message that echoes the raw error text after a prefix localized to
Indonesian exactly when the Accept-Language header is truthy and includes
the substring id. -/
theorem generic_failure_500 (inp : HandlerInput) (e : String)
    (hm : inp.method = "POST") (hk : truthyStr inp.geminiApiKey = true)
    (hfail : inp.formParse = .error e ∨
      ∃ form file rest mt, inp.formParse = .ok form ∧ form.image = some (file :: rest) ∧
        file.mimetype = some mt ∧ jsStartsWith mt "image/" = true ∧
        (inp.readFile = .error e ∨ ∃ buf, inp.readFile = .ok buf ∧ inp.modelResult = .error e)) :
    (handler inp).response
      = ⟨500, .message ((if wantsIndonesian inp.acceptLanguage then
            "Gagal menganalisis grafik. Detail kesalahan: "
          else
            "Failed to analyze chart. Error details: ") ++ e)⟩ := by
  rcases hfail with hf | ⟨form, file, rest, mt, hf, hi, hmt, hs, h2⟩
  · simp [handler, hm, hk, hf, catchMessage]
    split <;> rfl
  · rcases h2 with hr | ⟨buf, hr, hmr⟩
    · simp [handler, hm, hk, hf, hi, hmt, hs, hr, catchMessage]
      split <;> rfl
    · simp [handler, hm, hk, hf, hi, hmt, hs, hr, hmr, catchMessage]
      split <;> rfl

theorem generic_failure_500_witness :
    (handler ⟨"POST", some "key", some "id-ID", .error "boom", .ok "bytes", .ok "42"⟩).response
      = ⟨500, .message ((if wantsIndonesian (some "id-ID") then
            "Gagal menganalisis grafik. Detail kesalahan: "
          else
            "Failed to analyze chart. Error details: ") ++ "boom")⟩ :=
  generic_failure_500 ⟨"POST", some "key", some "id-ID", .error "boom", .ok "bytes", .ok "42"⟩
    "boom" rfl rfl (Or.inl rfl)

/-! ## The overall shape of every possible response -/

/-- Exhaustive case analysis of the handler: every invocation answers
either 200 with an analysis payload after exactly one model call, or one
of the three error statuses with a message payload after at most one model
call. -/
theorem handler_result_cases (inp : HandlerInput) :
    ((handler inp).response.status = 200
      ∧ (∃ j, (handler inp).response.body = .analysis j)
      ∧ (handler inp).modelCalls = 1)
    ∨ (((handler inp).response.status = 400 ∨ (handler inp).response.status = 405
          ∨ (handler inp).response.status = 500)
        ∧ (∃ m, (handler inp).response.body = .message m)
        ∧ (handler inp).modelCalls ≤ 1) := by
  by_cases hm : inp.method = "POST"
  · by_cases hk : truthyStr inp.geminiApiKey = true
    · rcases hfp : inp.formParse with e | form
      · right; simp [handler, hm, hk, hfp]
      · rcases himg : form.image with _ | ⟨_ | ⟨file, rest⟩⟩
        · right; simp [handler, hm, hk, hfp, himg]
        · right; simp [handler, hm, hk, hfp, himg]
        · rcases hmt : file.mimetype with _ | mt
          · right; simp [handler, hm, hk, hfp, himg, hmt]
          · by_cases hs : jsStartsWith mt "image/" = true
            · rcases hrf : inp.readFile with e | buf
              · right; simp [handler, hm, hk, hfp, himg, hmt, hs, hrf]
              · rcases hmr : inp.modelResult with e | text
                · right; simp [handler, hm, hk, hfp, himg, hmt, hs, hrf, hmr]
                · left; simp [handler, hm, hk, hfp, himg, hmt, hs, hrf, hmr]
            · right
              rw [Bool.not_eq_true] at hs
              simp [handler, hm, hk, hfp, himg, hmt, hs]
    · right
      rw [Bool.not_eq_true] at hk
      simp [handler, hm, hk]
  · right; simp [handler, hm]

/-! ## Claim C2: the success shape and the error shape -/

/-- Claim C2: a well-formed POST request, with the credential present, an
image-typed upload, and a model reply that parses as the expected
structured record, is answered 200 with that record as the analysis
payload; and every response whatsoever is either a 200 carrying an
analysis payload or a 400, 405 or 500 carrying a message payload. -/
theorem response_contract :
    (∀ (inp : HandlerInput) (form : ParsedForm) (file : UploadedFile)
        (rest : List UploadedFile) (mt buf text : String) (j : Json),
      inp.method = "POST" → truthyStr inp.geminiApiKey = true →
      inp.formParse = .ok form → form.image = some (file :: rest) →
      file.mimetype = some mt → jsStartsWith mt "image/" = true →
      inp.readFile = .ok buf → inp.modelResult = .ok text →
      jsonParse text = some j → isAnalysisRecord j = true →
      (handler inp).response = ⟨200, .analysis j⟩)
    ∧ (∀ inp : HandlerInput,
        ((handler inp).response.status = 200
          ∧ ∃ j, (handler inp).response.body = .analysis j)
        ∨ (((handler inp).response.status = 400 ∨ (handler inp).response.status = 405
              ∨ (handler inp).response.status = 500)
            ∧ ∃ m, (handler inp).response.body = .message m)) := by
  constructor
  · intro inp form file rest mt buf text j hm hk hf hi hmt hs hr hmr hp hrec
    simp [handler, hm, hk, hf, hi, hmt, hs, hr, hmr, hp]
  · intro inp
    rcases handler_result_cases inp with ⟨h1, h2, _⟩ | ⟨h1, h2, _⟩
    · exact Or.inl ⟨h1, h2⟩
    · exact Or.inr ⟨h1, h2⟩

theorem response_contract_witness :
    (handler okRecordInput).response = ⟨200, .analysis okRecordJson⟩
    ∧ (((handler okRecordInput).response.status = 200
          ∧ ∃ j, (handler okRecordInput).response.body = .analysis j)
        ∨ (((handler okRecordInput).response.status = 400
              ∨ (handler okRecordInput).response.status = 405
              ∨ (handler okRecordInput).response.status = 500)
            ∧ ∃ m, (handler okRecordInput).response.body = .message m)) :=
  ⟨response_contract.1 okRecordInput okForm ⟨some "image/png"⟩ [] "image/png" "bytes"
      okRecordText okRecordJson rfl rfl rfl rfl rfl rfl rfl rfl rfl (by decide),
    response_contract.2 okRecordInput⟩

/-! ## Claim C1: the fallback on an unparsable model reply -/

/-- Claim C1 counterexample: the reply 42 cannot be parsed as the expected
structured record, yet the handler does not substitute the placeholder: it
answers 200 with the bare JSON number as the analysis payload, which is
not the fallback record. -/
theorem parse_fallback_counterexample :
    parsesAsRecord "42" = false
    ∧ (handler numericReplyInput).response = ⟨200, .analysis (Json.num "42")⟩
    ∧ Json.num "42" ≠ fallbackRecord "en" "42" := by
  refine ⟨rfl, rfl, fun h => ?_⟩
  exact Json.noConfusion h

/-- Claim C1 (amended): when JSON.parse of the model reply raises, the
handler does not propagate the failure: it answers 200 with the canned
placeholder record, whose rationale embeds the raw reply after a fixed
prefix, whose direction is Uncertain or Tidak Pasti by output language,
whose support and resistance are the string N/A, and whose risk warning is
fixed.  A reply that parses as JSON but is not the expected record is
passed through unchanged instead. -/
theorem parse_failure_fallback (inp : HandlerInput) (form : ParsedForm)
    (file : UploadedFile) (rest : List UploadedFile) (mt buf text : String)
    (hm : inp.method = "POST") (hk : truthyStr inp.geminiApiKey = true)
    (hf : inp.formParse = .ok form) (hi : form.image = some (file :: rest))
    (hmt : file.mimetype = some mt) (hs : jsStartsWith mt "image/" = true)
    (hr : inp.readFile = .ok buf) (hmr : inp.modelResult = .ok text)
    (hp : jsonParse text = none) :
    (handler inp).response
      = ⟨200, .analysis (fallbackRecord (fieldOr form.outputLanguage "en") text)⟩ := by
  simp [handler, hm, hk, hf, hi, hmt, hs, hr, hmr, hp]

theorem parse_failure_fallback_witness :
    (handler proseReplyInput).response
      = ⟨200, .analysis (fallbackRecord "en" "not json")⟩ :=
  parse_failure_fallback proseReplyInput okForm ⟨some "image/png"⟩ [] "image/png"
    "bytes" "not json" rfl rfl rfl rfl rfl rfl rfl rfl rfl

/-! ## Claim C8: the outbound call count -/

/-- Claim C8 counterexample: an input that passes the method, credential
and upload validations, on which the read of the uploaded file then fails,
makes zero outbound model calls rather than exactly one. -/
theorem single_call_counterexample :
    readFailInput.method = "POST"
    ∧ truthyStr readFailInput.geminiApiKey = true
    ∧ readFailInput.formParse = .ok okForm
    ∧ okForm.image = some [⟨some "image/png"⟩]
    ∧ jsStartsWith "image/png" "image/" = true
    ∧ (handler readFailInput).modelCalls = 0 :=
  ⟨rfl, rfl, rfl, rfl, rfl, rfl⟩

/-- Claim C8 (amended): every invocation makes at most one outbound model
call, so the call is never retried; and the count is exactly one when the
request passes the method, credential and upload validations and the
uploaded file is then read successfully. -/
theorem at_most_one_model_call :
    (∀ inp : HandlerInput, (handler inp).modelCalls ≤ 1)
    ∧ (∀ (inp : HandlerInput) (form : ParsedForm) (file : UploadedFile)
        (rest : List UploadedFile) (mt buf : String),
      inp.method = "POST" → truthyStr inp.geminiApiKey = true →
      inp.formParse = .ok form → form.image = some (file :: rest) →
      file.mimetype = some mt → jsStartsWith mt "image/" = true →
      inp.readFile = .ok buf →
      (handler inp).modelCalls = 1) := by
  constructor
  · intro inp
    rcases handler_result_cases inp with ⟨_, _, h⟩ | ⟨_, _, h⟩
    · omega
    · exact h
  · intro inp form file rest mt buf hm hk hf hi hmt hs hr
    rcases hmr : inp.modelResult with e | text
    · simp [handler, hm, hk, hf, hi, hmt, hs, hr, hmr]
    · simp [handler, hm, hk, hf, hi, hmt, hs, hr, hmr]

theorem at_most_one_model_call_witness :
    (handler okRecordInput).modelCalls ≤ 1
    ∧ (handler okRecordInput).modelCalls = 1 :=
  ⟨at_most_one_model_call.1 okRecordInput,
    at_most_one_model_call.2 okRecordInput okForm ⟨some "image/png"⟩ [] "image/png"
      "bytes" rfl rfl rfl rfl rfl rfl rfl⟩

/-! ## Correctness of the substring search behind the regex model -/

theorem occursAt_zero (pat s : List Char) : occursAt pat s 0 ↔ pat <+: s := by
  simp [occursAt]

theorem occursAt_cons_succ (pat : List Char) (c : Char) (t : List Char) (i : Nat) :
    occursAt pat (c :: t) (i + 1) ↔ occursAt pat t i := by
  simp [occursAt]

/-- The search finds exactly the leftmost occurrence. -/
theorem findSubIdx_some_iff (pat : List Char) (hpat : pat ≠ []) :
    ∀ (s : List Char) (i : Nat),
      findSubIdx pat s = some i
        ↔ (occursAt pat s i ∧ ∀ j, j < i → ¬ occursAt pat s j) := by
  intro s
  induction s with
  | nil =>
    intro i
    constructor
    · intro h
      rw [findSubIdx] at h
      simp [List.isEmpty_iff, hpat] at h
    · rintro ⟨hocc, -⟩
      rw [occursAt, List.drop_nil, List.prefix_nil] at hocc
      exact absurd hocc hpat
  | cons c t ih =>
    intro i
    rw [findSubIdx]
    by_cases hpre : pat.isPrefixOf (c :: t)
    · rw [if_pos hpre]
      constructor
      · intro h
        obtain rfl : 0 = i := by cases h; rfl
        exact ⟨(occursAt_zero pat (c :: t)).mpr ((List.isPrefixOf_iff_prefix).mp hpre),
          fun j hj => absurd hj (Nat.not_lt_zero j)⟩
      · rintro ⟨hocc, hmin⟩
        cases i with
        | zero => rfl
        | succ i' =>
          exact absurd ((occursAt_zero pat (c :: t)).mpr ((List.isPrefixOf_iff_prefix).mp hpre))
            (hmin 0 (Nat.succ_pos i'))
    · rw [if_neg hpre]
      have hpre' : ¬ occursAt pat (c :: t) 0 := by
        rw [occursAt_zero]
        exact fun h => hpre ((List.isPrefixOf_iff_prefix).mpr h)
      constructor
      · intro h
        rw [Option.map_eq_some'] at h
        obtain ⟨i', hi', rfl⟩ := h
        have hmain := (ih i').mp hi'
        refine ⟨(occursAt_cons_succ pat c t i').mpr hmain.1, ?_⟩
        intro j hj
        cases j with
        | zero => exact hpre'
        | succ j' =>
          rw [occursAt_cons_succ]
          exact hmain.2 j' (Nat.lt_of_succ_lt_succ hj)
      · rintro ⟨hocc, hmin⟩
        cases i with
        | zero => exact absurd hocc hpre'
        | succ i' =>
          rw [Option.map_eq_some']
          refine ⟨i', (ih i').mpr ⟨(occursAt_cons_succ pat c t i').mp hocc, ?_⟩, rfl⟩
          intro j hj
          have hs := hmin (j + 1) (Nat.succ_lt_succ hj)
          rw [occursAt_cons_succ] at hs
          exact hs

/-- A failed search means the pattern occurs nowhere. -/
theorem findSubIdx_none_not_occursAt (pat : List Char) (hpat : pat ≠ []) :
    ∀ s : List Char, findSubIdx pat s = none → ∀ i, ¬ occursAt pat s i := by
  intro s
  induction s with
  | nil =>
    intro _ i hocc
    rw [occursAt, List.drop_nil, List.prefix_nil] at hocc
    exact hpat hocc
  | cons c t ih =>
    intro hnone i
    rw [findSubIdx] at hnone
    by_cases hpre : pat.isPrefixOf (c :: t)
    · rw [if_pos hpre] at hnone
      exact absurd hnone (by simp)
    · rw [if_neg hpre] at hnone
      rw [Option.map_eq_none'] at hnone
      intro hocc
      cases i with
      | zero =>
        rw [occursAt_zero] at hocc
        exact hpre ((List.isPrefixOf_iff_prefix).mpr hocc)
      | succ i' =>
        rw [occursAt_cons_succ] at hocc
        exact ih hnone i' hocc

/-- The implemented regex match computes exactly the declarative first
fenced block: leftmost opening delimiter, shortest content up to a closing
delimiter. -/
theorem jsonBlockContent_iff (s c : List Char) :
    jsonBlockContent s = some c ↔ firstBlockIs s c := by
  have hfne : jsonFence ≠ [] := by decide
  have hcne : fenceClose ≠ [] := by decide
  cases hfi : findSubIdx jsonFence s with
  | none =>
    have hval : jsonBlockContent s = none := by
      unfold jsonBlockContent
      rw [hfi]
    rw [hval]
    constructor
    · intro h
      exact absurd h (by simp)
    · rintro ⟨i, k, hocc, hmin, hocc2, hmin2, hceq⟩
      exact absurd hocc (findSubIdx_none_not_occursAt jsonFence hfne s hfi i)
  | some i =>
    have hi := (findSubIdx_some_iff jsonFence hfne s i).mp hfi
    cases hki : findSubIdx fenceClose (s.drop (i + jsonFence.length)) with
    | none =>
      have hval : jsonBlockContent s = none := by
        unfold jsonBlockContent
        rw [hfi]
        dsimp only
        rw [hki]
      rw [hval]
      constructor
      · intro h
        exact absurd h (by simp)
      · rintro ⟨i', k, hocc, hmin, hocc2, hmin2, hceq⟩
        have hii : i' = i := by
          rcases Nat.lt_trichotomy i' i with h | h | h
          · exact absurd hocc (hi.2 i' h)
          · exact h
          · exact absurd hi.1 (hmin i h)
        subst hii
        exact absurd hocc2 (findSubIdx_none_not_occursAt fenceClose hcne _ hki k)
    | some k =>
      have hval : jsonBlockContent s = some ((s.drop (i + jsonFence.length)).take k) := by
        unfold jsonBlockContent
        rw [hfi]
        dsimp only
        rw [hki]
      rw [hval]
      have hk := (findSubIdx_some_iff fenceClose hcne _ k).mp hki
      constructor
      · intro h
        rw [Option.some.injEq] at h
        subst h
        exact ⟨i, k, hi.1, hi.2, hk.1, hk.2, rfl⟩
      · rintro ⟨i', k', hocc, hmin, hocc2, hmin2, rfl⟩
        have hii : i' = i := by
          rcases Nat.lt_trichotomy i' i with h | h | h
          · exact absurd hocc (hi.2 i' h)
          · exact h
          · exact absurd hi.1 (hmin i h)
        subst hii
        have hkk : k' = k := by
          rcases Nat.lt_trichotomy k' k with h | h | h
          · exact absurd hocc2 (hk.2 k' h)
          · exact h
          · exact absurd hk.1 (hmin2 k h)
        subst hkk
        rfl

/-! ## Claim C10: the extraction of the structured record in the variants -/

/-- Claim C10 counterexample: the reply carries a fenced json block whose
first-block content is the empty string, yet the text the code hands to
JSON.parse is the entire reply, not that content: the falsy check on the
captured group sends an empty capture to the direct-parse branch. -/
theorem variant_extraction_counterexample :
    firstBlockIs emptyBlockReply.toList []
    ∧ selectJsonText emptyBlockReply.toList = emptyBlockReply.toList
    ∧ emptyBlockReply.toList ≠ ([] : List Char) := by
  refine ⟨(jsonBlockContent_iff emptyBlockReply.toList []).mp (by decide), by decide, by decide⟩

/-- Claim C10 (amended): the variants extract the structured record by
first matching a fenced json code block.  When such a block is present
with non-empty content, the text handed to JSON.parse is the first block
content only; when no block is present, or the first block content is
empty, the entire reply text is parsed directly; and the analysis value is
the parse of the selected text whenever that parse succeeds. -/
theorem variant_extraction :
    (∀ s c, firstBlockIs s c → c ≠ [] → selectJsonText s = c)
    ∧ (∀ s c, firstBlockIs s c → c = [] → selectJsonText s = s)
    ∧ (∀ s, (∀ c, ¬ firstBlockIs s c) → selectJsonText s = s)
    ∧ (∀ lang raw j, jsonParse (String.mk (selectJsonText raw.toList)) = some j →
        variantAnalysisOutput lang raw = j) := by
  refine ⟨?_, ?_, ?_, ?_⟩
  · intro s c hfb hne
    rw [selectJsonText, (jsonBlockContent_iff s c).mpr hfb]
    simp [List.isEmpty_iff, hne]
  · intro s c hfb he
    subst he
    rw [selectJsonText, (jsonBlockContent_iff s []).mpr hfb]
    simp
  · intro s hno
    rw [selectJsonText]
    cases hbc : jsonBlockContent s with
    | none => rfl
    | some c => exact absurd ((jsonBlockContent_iff s c).mp hbc) (hno c)
  · intro lang raw j hp
    rw [variantAnalysisOutput, hp]

theorem variant_extraction_witness :
    selectJsonText fencedReply.toList = "42".toList :=
  variant_extraction.1 fencedReply.toList "42".toList
    ((jsonBlockContent_iff fencedReply.toList "42".toList).mp (by decide)) (by decide)

end MarketPredictor
